import Mathlib

/-!
Verification of the relay-validation logic of
`packages/financial-templates-lib/src/price-feed/InsuredBridgePriceFeed.ts`.

The price feed adjudicates whether an L1 "relay" price request faithfully
reflects an L2 "deposit" event.  Its method `getHistoricalPrice` decodes the
ancillary data, matches a pending relay from the L1 client, applies the
settleable bypass, matches a deposit from the locally cached deposit list, and
cross-checks the realized LP fee.  Its method `update` refreshes both clients
and then replaces the cached deposit list wholesale.

Shallow embedding conventions:
  * big-number values (`BN`) are `Nat` (fee percentages are non-negative
    fixed-point integers); the source compares them via `.toString()`, which we
    mirror with `toString` on `Nat`;
  * the TypeScript method may throw (promise rejection); we return
    `Except DecodeError _`;
  * mutable object state (`this.deposits`, the two client objects) is passed
    explicitly: a method on the feed takes the feed state and returns the
    (possibly updated) feed state alongside its result;
  * external collaborators (the ancillary-data codec `parseAncillaryData` from
    the common package, and the two clients' own `update` bodies), whose code
    is not part of the verified source, are abstracted as parameters, per the
    interfaces the spec gives them.
-/

/-- Error raised by the ancillary-data codec on malformed input
(the source throws a JavaScript `Error`; we carry its message). -/
abbrev DecodeError := String

/-- Error raised by a collaborator client's refresh operation. -/
abbrev RefreshError := String

/-- A deposit record from the L2 client snapshot
(`Deposit` in `InsuredBridgeL2Client`).  Only the `depositHash` field is
inspected by the price feed itself; the remaining deposit parameters are
consumed solely by the L1 client's opaque fee-calculation capability, which we
abstract as a function, so they are not modelled separately. -/
structure Deposit where
  depositHash : String
  deriving Repr, DecidableEq

/-- A pending relay record from the L1 client snapshot.
Fields are the ones `getHistoricalPrice` reads: the ancillary-data hash used
as the matching key, the hash of the deposit the relay claims to fulfil, the
settleable flag (dispute window elapsed), and the claimed realized LP fee
percent (fixed-point, 18 decimals, as a big number). -/
structure Relay where
  relayAncillaryDataHash : String
  depositHash : String
  settleable : Bool
  realizedLpFeePct : Nat
  deriving Repr, DecidableEq

/-- Modelled from the spec: the L1 collaborator exposes a pending-relay
collection and a fee-calculation capability
(`getPendingRelayedDeposits`, `calculateRealizedLpFeePctForDeposit`); its
implementation (`InsuredBridgeL1Client`) is external to the verified source,
so its observable state is the relay snapshot plus the fee function. -/
structure InsuredBridgeL1Client where
  pendingRelays : List Relay
  calculateRealizedLpFeePctForDeposit : Deposit → Nat

/-- The L1 client accessor used by the price feed. -/
def InsuredBridgeL1Client.getPendingRelayedDeposits
    (c : InsuredBridgeL1Client) : List Relay :=
  c.pendingRelays

/-- Modelled from the spec: the L2 collaborator exposes the full current
deposit collection (`getAllDeposits`); its implementation
(`InsuredBridgeL2Client`) is external to the verified source. -/
structure InsuredBridgeL2Client where
  deposits : List Deposit

/-- The L2 client accessor used by the price feed. -/
def InsuredBridgeL2Client.getAllDeposits
    (c : InsuredBridgeL2Client) : List Deposit :=
  c.deposits

/-- The mutable state of an `InsuredBridgePriceFeed` instance: the two client
references and the locally cached deposit list (`this.deposits`, initialised
to `[]` and replaced wholesale by `update`). -/
structure InsuredBridgePriceFeed where
  l1Client : InsuredBridgeL1Client
  l2Client : InsuredBridgeL2Client
  deposits : List Deposit

/-- The `isRelayValid` enum of the source: `No = 0`, `Yes = 1`. -/
inductive isRelayValid where
  | No
  | Yes
  deriving Repr, DecidableEq

/-- Numeric value of the `isRelayValid` enum members. -/
def isRelayValid.toNat : isRelayValid → Nat
  | .No => 0
  | .Yes => 1

/-- `toBNWei` of the source: scale by `10 ^ 18` (Web3 `toWei` on an integer). -/
def toBNWei (n : Nat) : Nat := n * 10 ^ 18

/-- JavaScript property access on the decoded key-value mapping followed by
string concatenation: `parsedAncillaryData.relayHash` is the stored string
when the key is present, and the string `"undefined"` once concatenated with
`"0x"` when the key is absent (JS coerces `undefined` to `"undefined"`). -/
def jsFieldOrUndefined (m : List (String × String)) (key : String) : String :=
  match m.lookup key with
  | some v => v
  | none => "undefined"

/-- `getHistoricalPrice(time, ancillaryData)` of `InsuredBridgePriceFeed`.
The codec `parseAncillaryData` is passed as a parameter (external collaborator;
per the spec it returns a key-value mapping and fails on malformed input).
Returns the verdict (or the propagated decode error) together with the feed
state after the call; the method body never assigns to `this`, so the state
component is the input state. -/
def InsuredBridgePriceFeed.getHistoricalPrice
    (feed : InsuredBridgePriceFeed) (time : Nat) (ancillaryData : String)
    (parseAncillaryData : String → Except DecodeError (List (String × String))) :
    Except DecodeError Nat × InsuredBridgePriceFeed :=
  -- Note: `time` is unused, as in the source.
  (match parseAncillaryData ancillaryData with
   | .error e => .error e
   | .ok parsedAncillaryData =>
     -- const relayAncillaryDataHash = "0x" + parsedAncillaryData.relayHash
     -- const relay = this.l1Client.getPendingRelayedDeposits().find(...)
     match List.find?
         (fun relay => relay.relayAncillaryDataHash ==
           "0x" ++ jsFieldOrUndefined parsedAncillaryData "relayHash")
         feed.l1Client.getPendingRelayedDeposits with
     | none => .ok (toBNWei isRelayValid.No.toNat)
     | some relay =>
       -- if (relay.settleable) return Yes
       if relay.settleable then .ok (toBNWei isRelayValid.Yes.toNat)
       else
         -- const deposit = this.deposits.find(...)
         match List.find?
             (fun deposit => deposit.depositHash == relay.depositHash)
             feed.deposits with
         | none => .ok (toBNWei isRelayValid.No.toNat)
         | some deposit =>
           -- expectedRealizedFeePct.toString() !== relay.realizedLpFeePct.toString()
           if toString (feed.l1Client.calculateRealizedLpFeePctForDeposit deposit)
               ≠ toString relay.realizedLpFeePct
           then .ok (toBNWei isRelayValid.No.toNat)
           else .ok (toBNWei isRelayValid.Yes.toNat),
   feed)

/-- `update()` of `InsuredBridgePriceFeed`.
Modelled from the spec for the collaborator side: the two clients' own
refresh bodies are external, so their outcomes are passed in — a successful
refresh yields the client's new state, a failure yields a `RefreshError`.
`Promise.all` starts both refreshes; it rejects if either rejects, but the
side effect of a refresh that succeeded persists on that client.  Only when
both succeed does the source execute
`this.deposits = this.l2Client.getAllDeposits()`; on any failure the cached
deposit list is left untouched. -/
def InsuredBridgePriceFeed.update
    (feed : InsuredBridgePriceFeed)
    (l1Refresh : Except RefreshError InsuredBridgeL1Client)
    (l2Refresh : Except RefreshError InsuredBridgeL2Client) :
    Except RefreshError Unit × InsuredBridgePriceFeed :=
  match l1Refresh, l2Refresh with
  | .ok l1Next, .ok l2Next =>
    (.ok (), ⟨l1Next, l2Next, l2Next.getAllDeposits⟩)
  | .ok l1Next, .error e =>
    (.error e, ⟨l1Next, feed.l2Client, feed.deposits⟩)
  | .error e, .ok l2Next =>
    (.error e, ⟨feed.l1Client, l2Next, feed.deposits⟩)
  | .error e, .error _ =>
    (.error e, feed)

/-- `getPriceFeedDecimals()` of the source: the constant 18. -/
def InsuredBridgePriceFeed.getPriceFeedDecimals
    (_ : InsuredBridgePriceFeed) : Nat :=
  18

/-- Replace the feed's L2 client reference, leaving the L1 client and the
cached deposit list unchanged (used to state that the verdict ignores the
live L2 client). -/
def InsuredBridgePriceFeed.withL2Client
    (feed : InsuredBridgePriceFeed) (l2 : InsuredBridgeL2Client) :
    InsuredBridgePriceFeed :=
  ⟨feed.l1Client, l2, feed.deposits⟩

/-- C1: for every ancillary-data input whose decoded relay hash matches a
pending relay in the L1 snapshot with `settleable = true`,
`getHistoricalPrice` returns the Valid verdict `1 * 10 ^ 18` immediately —
for every cached deposit list and every fee capability — and a repeated call
on the resulting state returns the same verdict. -/
theorem getHistoricalPrice_settleable_valid
    (feed : InsuredBridgePriceFeed) (t : Nat) (anc : String)
    (codec : String → Except DecodeError (List (String × String)))
    (m : List (String × String)) (relay : Relay)
    (hdec : codec anc = .ok m)
    (hfind : List.find?
        (fun r => r.relayAncillaryDataHash ==
          "0x" ++ jsFieldOrUndefined m "relayHash")
        feed.l1Client.getPendingRelayedDeposits = some relay)
    (hset : relay.settleable = true) :
    (feed.getHistoricalPrice t anc codec).1 = .ok (1 * 10 ^ 18) ∧
    (feed.getHistoricalPrice t anc codec).2.getHistoricalPrice t anc codec
      = feed.getHistoricalPrice t anc codec := by
  constructor
  · simp only [InsuredBridgePriceFeed.getHistoricalPrice, hdec, hfind, hset]
    rfl
  · rfl

/-- Witness for C1 at a concrete settleable relay: the cached deposit list is
empty and the fee capability disagrees, yet the verdict is Valid. -/
theorem getHistoricalPrice_settleable_valid_witness :
    ((⟨⟨[⟨"0xaa", "0xdep", true, 5⟩], fun _ => 7⟩, ⟨[]⟩, []⟩ :
        InsuredBridgePriceFeed).getHistoricalPrice 0 "anc"
        (fun _ => .ok [("relayHash", "aa")])).1 = .ok (1 * 10 ^ 18) ∧
    ((⟨⟨[⟨"0xaa", "0xdep", true, 5⟩], fun _ => 7⟩, ⟨[]⟩, []⟩ :
        InsuredBridgePriceFeed).getHistoricalPrice 0 "anc"
        (fun _ => .ok [("relayHash", "aa")])).2.getHistoricalPrice 0 "anc"
        (fun _ => .ok [("relayHash", "aa")])
      = (⟨⟨[⟨"0xaa", "0xdep", true, 5⟩], fun _ => 7⟩, ⟨[]⟩, []⟩ :
        InsuredBridgePriceFeed).getHistoricalPrice 0 "anc"
        (fun _ => .ok [("relayHash", "aa")]) :=
  getHistoricalPrice_settleable_valid _ 0 "anc" _ [("relayHash", "aa")]
    ⟨"0xaa", "0xdep", true, 5⟩ rfl (by decide) rfl

/-- C2: for every matched, non-settleable relay with a matching deposit in
the cached list, the verdict is Valid exactly when the fee computed by the L1
client's fee capability equals the relay's claimed `realizedLpFeePct` as
decimal strings, and Invalid (0) when the strings differ. -/
theorem getHistoricalPrice_fee_crosscheck
    (feed : InsuredBridgePriceFeed) (t : Nat) (anc : String)
    (codec : String → Except DecodeError (List (String × String)))
    (m : List (String × String)) (relay : Relay) (deposit : Deposit)
    (hdec : codec anc = .ok m)
    (hfind : List.find?
        (fun r => r.relayAncillaryDataHash ==
          "0x" ++ jsFieldOrUndefined m "relayHash")
        feed.l1Client.getPendingRelayedDeposits = some relay)
    (hset : relay.settleable = false)
    (hdep : List.find? (fun d => d.depositHash == relay.depositHash)
        feed.deposits = some deposit) :
    (feed.getHistoricalPrice t anc codec).1 =
      .ok (if toString (feed.l1Client.calculateRealizedLpFeePctForDeposit deposit)
             = toString relay.realizedLpFeePct
           then 1 * 10 ^ 18 else 0) := by
  simp only [InsuredBridgePriceFeed.getHistoricalPrice, hdec, hfind, hset, hdep]
  by_cases h : toString (feed.l1Client.calculateRealizedLpFeePctForDeposit deposit)
      = toString relay.realizedLpFeePct
  · simp [h]
    rfl
  · simp [h]
    rfl

/-- Witness for C2 at a concrete matched relay/deposit pair whose claimed fee
equals the computed expected fee: the verdict is Valid. -/
theorem getHistoricalPrice_fee_crosscheck_witness :
    ((⟨⟨[⟨"0xbb", "0xd1", false, 100⟩], fun _ => 100⟩, ⟨[]⟩, [⟨"0xd1"⟩]⟩ :
        InsuredBridgePriceFeed).getHistoricalPrice 0 "anc"
        (fun _ => .ok [("relayHash", "bb")])).1 = .ok (1 * 10 ^ 18) :=
  getHistoricalPrice_fee_crosscheck _ 0 "anc" _ [("relayHash", "bb")]
    ⟨"0xbb", "0xd1", false, 100⟩ ⟨"0xd1"⟩ rfl (by decide) rfl (by decide)

/-- C3: for every ancillary-data input that decodes successfully but whose
decoded relay hash (with the `"0x"` prefix) matches no pending relay in the
L1 snapshot, the verdict is Invalid (0). -/
theorem getHistoricalPrice_no_matching_relay
    (feed : InsuredBridgePriceFeed) (t : Nat) (anc : String)
    (codec : String → Except DecodeError (List (String × String)))
    (m : List (String × String))
    (hdec : codec anc = .ok m)
    (hfind : List.find?
        (fun r => r.relayAncillaryDataHash ==
          "0x" ++ jsFieldOrUndefined m "relayHash")
        feed.l1Client.getPendingRelayedDeposits = none) :
    (feed.getHistoricalPrice t anc codec).1 = .ok 0 := by
  simp only [InsuredBridgePriceFeed.getHistoricalPrice, hdec, hfind]
  rfl

/-- Witness for C3: a decoded hash matching no pending relay gives Invalid. -/
theorem getHistoricalPrice_no_matching_relay_witness :
    ((⟨⟨[⟨"0xbb", "0xd1", false, 100⟩], fun _ => 100⟩, ⟨[]⟩, []⟩ :
        InsuredBridgePriceFeed).getHistoricalPrice 0 "anc"
        (fun _ => .ok [("relayHash", "cc")])).1 = .ok 0 :=
  getHistoricalPrice_no_matching_relay _ 0 "anc" _ [("relayHash", "cc")]
    rfl (by decide)

/-- C4: for every matched relay with `settleable = false` whose `depositHash`
matches no record in the cached deposit list, the verdict is Invalid (0). -/
theorem getHistoricalPrice_no_matching_deposit
    (feed : InsuredBridgePriceFeed) (t : Nat) (anc : String)
    (codec : String → Except DecodeError (List (String × String)))
    (m : List (String × String)) (relay : Relay)
    (hdec : codec anc = .ok m)
    (hfind : List.find?
        (fun r => r.relayAncillaryDataHash ==
          "0x" ++ jsFieldOrUndefined m "relayHash")
        feed.l1Client.getPendingRelayedDeposits = some relay)
    (hset : relay.settleable = false)
    (hdep : List.find? (fun d => d.depositHash == relay.depositHash)
        feed.deposits = none) :
    (feed.getHistoricalPrice t anc codec).1 = .ok 0 := by
  simp only [InsuredBridgePriceFeed.getHistoricalPrice, hdec, hfind, hset, hdep]
  rfl

/-- Witness for C4: a matched, non-settleable relay whose deposit hash is
absent from the cached deposit list gives Invalid. -/
theorem getHistoricalPrice_no_matching_deposit_witness :
    ((⟨⟨[⟨"0xbb", "0xd1", false, 100⟩], fun _ => 100⟩, ⟨[]⟩, [⟨"0xd2"⟩]⟩ :
        InsuredBridgePriceFeed).getHistoricalPrice 0 "anc"
        (fun _ => .ok [("relayHash", "bb")])).1 = .ok 0 :=
  getHistoricalPrice_no_matching_deposit _ 0 "anc" _ [("relayHash", "bb")]
    ⟨"0xbb", "0xd1", false, 100⟩ rfl (by decide) rfl (by decide)

/-- C5: for every ancillary-data input the codec fails to decode,
`getHistoricalPrice` propagates the decode error — it returns no numeric
verdict (in particular not the Invalid verdict 0) — and leaves the feed
state, including the cached deposit list, unchanged. -/
theorem getHistoricalPrice_decode_error
    (feed : InsuredBridgePriceFeed) (t : Nat) (anc : String)
    (codec : String → Except DecodeError (List (String × String)))
    (e : DecodeError)
    (hdec : codec anc = .error e) :
    feed.getHistoricalPrice t anc codec = (.error e, feed) := by
  simp only [InsuredBridgePriceFeed.getHistoricalPrice, hdec]

/-- Witness for C5: a codec that rejects its input makes the call fail with
that error and leaves the state unchanged. -/
theorem getHistoricalPrice_decode_error_witness :
    (⟨⟨[⟨"0xbb", "0xd1", false, 100⟩], fun _ => 100⟩, ⟨[]⟩, [⟨"0xd1"⟩]⟩ :
        InsuredBridgePriceFeed).getHistoricalPrice 0 "anc"
        (fun _ => .error "malformed ancillary data")
      = (.error "malformed ancillary data",
         ⟨⟨[⟨"0xbb", "0xd1", false, 100⟩], fun _ => 100⟩, ⟨[]⟩, [⟨"0xd1"⟩]⟩) :=
  getHistoricalPrice_decode_error _ 0 "anc" _ "malformed ancillary data" rfl

/-- C6: `update` is atomic with respect to the feed's cached state.  When both
collaborator refreshes succeed it succeeds and replaces the cached deposit
list wholesale with the L2 client's full current deposit set (and installs
both refreshed clients); when either refresh fails it fails as a unit and the
previously cached deposit list is untouched — the cache is never a partial
mixture of old and new deposits. -/
theorem update_atomic
    (feed : InsuredBridgePriceFeed)
    (l1Refresh : Except RefreshError InsuredBridgeL1Client)
    (l2Refresh : Except RefreshError InsuredBridgeL2Client) :
    (∀ l1Next l2Next, l1Refresh = .ok l1Next → l2Refresh = .ok l2Next →
      feed.update l1Refresh l2Refresh =
        (.ok (), ⟨l1Next, l2Next, l2Next.getAllDeposits⟩)) ∧
    (((∃ e, l1Refresh = .error e) ∨ (∃ e, l2Refresh = .error e)) →
      (∃ e, (feed.update l1Refresh l2Refresh).1 = .error e) ∧
      (feed.update l1Refresh l2Refresh).2.deposits = feed.deposits) := by
  constructor
  · intro l1Next l2Next h1 h2
    subst h1; subst h2
    rfl
  · intro hfail
    cases l1Refresh with
    | error e =>
      cases l2Refresh <;> exact ⟨⟨e, rfl⟩, rfl⟩
    | ok l1Next =>
      cases l2Refresh with
      | error e => exact ⟨⟨e, rfl⟩, rfl⟩
      | ok l2Next =>
        rcases hfail with ⟨e, h⟩ | ⟨e, h⟩ <;> cases h

/-- Witness for C6: a failed L1 refresh makes `update` fail and leaves the
cached deposit list untouched, and a fully successful `update` replaces it
wholesale. -/
theorem update_atomic_witness :
    ((∃ e, ((⟨⟨[], fun _ => 0⟩, ⟨[]⟩, [⟨"0xd1"⟩]⟩ :
        InsuredBridgePriceFeed).update (.error "node down")
        (.ok ⟨[⟨"0xd2"⟩]⟩)).1 = .error e) ∧
     ((⟨⟨[], fun _ => 0⟩, ⟨[]⟩, [⟨"0xd1"⟩]⟩ :
        InsuredBridgePriceFeed).update (.error "node down")
        (.ok ⟨[⟨"0xd2"⟩]⟩)).2.deposits = [⟨"0xd1"⟩]) ∧
    (⟨⟨[], fun _ => 0⟩, ⟨[]⟩, [⟨"0xd1"⟩]⟩ :
        InsuredBridgePriceFeed).update (.ok ⟨[], fun _ => 9⟩)
        (.ok ⟨[⟨"0xd2"⟩]⟩)
      = (.ok (), ⟨⟨[], fun _ => 9⟩, ⟨[⟨"0xd2"⟩]⟩, [⟨"0xd2"⟩]⟩) :=
  ⟨(update_atomic ⟨⟨[], fun _ => 0⟩, ⟨[]⟩, [⟨"0xd1"⟩]⟩ (.error "node down")
      (.ok ⟨[⟨"0xd2"⟩]⟩)).2 (Or.inl ⟨"node down", rfl⟩),
   (update_atomic ⟨⟨[], fun _ => 0⟩, ⟨[]⟩, [⟨"0xd1"⟩]⟩ (.ok ⟨[], fun _ => 9⟩)
      (.ok ⟨[⟨"0xd2"⟩]⟩)).1 ⟨[], fun _ => 9⟩ ⟨[⟨"0xd2"⟩]⟩ rfl rfl⟩

/-- C7: `getHistoricalPrice` never mutates the feed state (the cached deposit
list and both client references are returned unchanged), and its verdict is a
pure function of the ancillary data, the L1 client (its relay snapshot and
fee capability), and the cached deposit list: two feeds agreeing on the L1
client and on the cached deposits receive the same verdict. -/
theorem getHistoricalPrice_pure_frame
    (feed : InsuredBridgePriceFeed) (t : Nat) (anc : String)
    (codec : String → Except DecodeError (List (String × String))) :
    (feed.getHistoricalPrice t anc codec).2 = feed ∧
    ∀ feedAlt : InsuredBridgePriceFeed,
      feedAlt.l1Client = feed.l1Client → feedAlt.deposits = feed.deposits →
      (feedAlt.getHistoricalPrice t anc codec).1
        = (feed.getHistoricalPrice t anc codec).1 := by
  refine ⟨rfl, ?_⟩
  intro feedAlt h1 h2
  simp only [InsuredBridgePriceFeed.getHistoricalPrice, h1, h2]

/-- Witness for C7: a concrete call leaves the state unchanged, and a feed
differing only in its L2 client reference gets the same verdict. -/
theorem getHistoricalPrice_pure_frame_witness :
    ((⟨⟨[⟨"0xbb", "0xd1", false, 100⟩], fun _ => 100⟩, ⟨[]⟩, [⟨"0xd1"⟩]⟩ :
        InsuredBridgePriceFeed).getHistoricalPrice 0 "anc"
        (fun _ => .ok [("relayHash", "bb")])).2
      = ⟨⟨[⟨"0xbb", "0xd1", false, 100⟩], fun _ => 100⟩, ⟨[]⟩, [⟨"0xd1"⟩]⟩ ∧
    ((⟨⟨[⟨"0xbb", "0xd1", false, 100⟩], fun _ => 100⟩, ⟨[⟨"0xzz"⟩]⟩,
        [⟨"0xd1"⟩]⟩ :
        InsuredBridgePriceFeed).getHistoricalPrice 0 "anc"
        (fun _ => .ok [("relayHash", "bb")])).1
      = ((⟨⟨[⟨"0xbb", "0xd1", false, 100⟩], fun _ => 100⟩, ⟨[]⟩, [⟨"0xd1"⟩]⟩ :
        InsuredBridgePriceFeed).getHistoricalPrice 0 "anc"
        (fun _ => .ok [("relayHash", "bb")])).1 :=
  ⟨(getHistoricalPrice_pure_frame
      ⟨⟨[⟨"0xbb", "0xd1", false, 100⟩], fun _ => 100⟩, ⟨[]⟩, [⟨"0xd1"⟩]⟩
      0 "anc" (fun _ => .ok [("relayHash", "bb")])).1,
   (getHistoricalPrice_pure_frame
      ⟨⟨[⟨"0xbb", "0xd1", false, 100⟩], fun _ => 100⟩, ⟨[]⟩, [⟨"0xd1"⟩]⟩
      0 "anc" (fun _ => .ok [("relayHash", "bb")])).2
      ⟨⟨[⟨"0xbb", "0xd1", false, 100⟩], fun _ => 100⟩, ⟨[⟨"0xzz"⟩]⟩,
        [⟨"0xd1"⟩]⟩ rfl rfl⟩

/-- C8: the `time` parameter does not influence `getHistoricalPrice`: with
identical feed state, ancillary data and codec, any two time values give the
same result (the same verdict, or the same error) and the same final state. -/
theorem getHistoricalPrice_time_irrelevant
    (feed : InsuredBridgePriceFeed) (t1 t2 : Nat) (anc : String)
    (codec : String → Except DecodeError (List (String × String))) :
    feed.getHistoricalPrice t1 anc codec = feed.getHistoricalPrice t2 anc codec :=
  rfl

/-- C9: the verdict is computed against the cached deposit list, not the live
L2 client: replacing the feed's L2 client reference by any other (as happens
when the L2 collaborator's deposit set changes after the last `update`)
changes neither the verdict nor the error outcome of any call. -/
theorem getHistoricalPrice_ignores_live_l2
    (feed : InsuredBridgePriceFeed) (l2Live : InsuredBridgeL2Client)
    (t : Nat) (anc : String)
    (codec : String → Except DecodeError (List (String × String))) :
    ((feed.withL2Client l2Live).getHistoricalPrice t anc codec).1
      = (feed.getHistoricalPrice t anc codec).1 :=
  rfl

/-- C10: for every input that decodes to a mapping with no `relayHash` key,
no decode error is signalled; the looked-up hash is the JavaScript
concatenation `"0x" + undefined = "0xundefined"`, so when no pending relay
carries that hash the verdict is Invalid (0). -/
theorem getHistoricalPrice_missing_relayHash_field
    (feed : InsuredBridgePriceFeed) (t : Nat) (anc : String)
    (codec : String → Except DecodeError (List (String × String)))
    (m : List (String × String))
    (hdec : codec anc = .ok m)
    (hmiss : m.lookup "relayHash" = none)
    (hnone : List.find? (fun r => r.relayAncillaryDataHash == "0xundefined")
        feed.l1Client.getPendingRelayedDeposits = none) :
    (feed.getHistoricalPrice t anc codec).1 = .ok 0 := by
  have hfield : jsFieldOrUndefined m "relayHash" = "undefined" := by
    simp [jsFieldOrUndefined, hmiss]
  have happ : "0x" ++ jsFieldOrUndefined m "relayHash" = "0xundefined" := by
    rw [hfield]
    decide
  simp only [InsuredBridgePriceFeed.getHistoricalPrice, hdec, happ, hnone]
  rfl

/-- Witness for C10: a successfully decoded mapping lacking the `relayHash`
key yields the Invalid verdict, not an error, against a snapshot whose only
relay has an ordinary hash. -/
theorem getHistoricalPrice_missing_relayHash_field_witness :
    ((⟨⟨[⟨"0xbb", "0xd1", true, 100⟩], fun _ => 100⟩, ⟨[]⟩, [⟨"0xd1"⟩]⟩ :
        InsuredBridgePriceFeed).getHistoricalPrice 0 "anc"
        (fun _ => .ok [("otherKey", "bb")])).1 = .ok 0 :=
  getHistoricalPrice_missing_relayHash_field _ 0 "anc" _ [("otherKey", "bb")]
    rfl (by decide) (by decide)
